/-
Verification of the two-tier browsing tool in `src/main.py` (index load,
filter, sort, paginate, detail fetch).  Machinery: a shallow embedding of the
script's data flow.  DataFrames become `List`s of records, the parquet store
becomes a `List StoreRow`, and the pandas/duckdb calls the script makes are
translated operation by operation.  `str.contains` (pandas, `regex=True`,
`na=False`) is modelled by a small regular-expression engine covering the
pattern subset of literals, `.` and `*`; other metacharacters are rejected at
compile time, as Python rejects ill-formed patterns such as `"("`.
-/
import Mathlib

namespace Narou

/-- One row of the underlying parquet store, all columns, each nullable except
the identifier.  Matches the column set used by `main.py`: the narrow columns
plus the large `story` field. -/
structure StoreRow where
  ncode : String
  title : Option String
  genre : Option String
  global_point : Option Int
  length : Option Int
  general_lastup : Option String
  keyword : Option String
  story : Option String
deriving DecidableEq, Repr

/-- One record of the in-memory index built by `load_index_data` (lines 16-31):
the seven narrow columns only, never `story`; `global_point` and `genre` are
normalized at load time (`fillna(0).astype(int)`, `fillna("不明")`). -/
structure IndexRecord where
  ncode : String
  title : Option String
  genre : String
  global_point : Int
  length : Option Int
  general_lastup : Option String
  keyword : Option String
deriving DecidableEq, Repr

/-- One row of the detail query result (`SELECT ncode, story ... WHERE ncode IN`). -/
structure DetailRow where
  ncode : String
  story : Option String
deriving DecidableEq, Repr

/-- Error raised by `re.compile` inside `pandas.Series.str.contains` when the
keyword is not a well-formed pattern. -/
inductive RegexErr where
  | badPattern : String → RegexErr
deriving DecidableEq, Repr

/-- Failure of the underlying store (duckdb unreachable / query failure). -/
inductive DataSourceErr where
  | unavailable
deriving DecidableEq, Repr

/-- Removing the large field from a store row; used to state that the index
load never depends on `story`. -/
def eraseStory (row : StoreRow) : StoreRow :=
  { row with story := none }

/-- The narrow projection-with-normalization applied to one store row (the
per-row action of the index load). -/
def narrowOf (row : StoreRow) : IndexRecord :=
  { ncode := row.ncode
    title := row.title
    genre := row.genre.getD "不明"
    global_point := row.global_point.getD 0
    length := row.length
    general_lastup := row.general_lastup
    keyword := row.keyword }

/-- Model of `load_index_data` (lines 16-31): project the seven narrow columns
from every store row, then normalize `global_point` (`fillna(0).astype(int)`)
and `genre` (`fillna("不明")`). -/
def load_index_data (store : List StoreRow) : List IndexRecord :=
  store.map fun row =>
    { ncode := row.ncode
      title := row.title
      genre := row.genre.getD "不明"
      global_point := row.global_point.getD 0
      length := row.length
      general_lastup := row.general_lastup
      keyword := row.keyword }

/-- One atom of the regular-expression pattern subset: `.` (any character but
newline, Python default without `DOTALL`) or a literal character. -/
inductive Atom where
  | dot : Atom
  | lit : Char → Atom
deriving DecidableEq, Repr

/-- A pattern piece: an atom, optionally starred (`*`, zero or more). -/
structure Piece where
  atom : Atom
  starred : Bool
deriving DecidableEq, Repr

/-- Whether an atom matches one character (Python `re` semantics: `.` matches
anything except a newline; a literal matches itself, case-sensitively). -/
def atomMatch : Atom → Char → Bool
  | Atom.dot, c => c ≠ '\n'
  | Atom.lit a, c => a = c

/-- Metacharacters outside the modelled subset.  Patterns that use them are
rejected at compile time (conservative for `re.compile`, which accepts some of
them; every pattern this model accepts has Python's semantics). -/
def metaChars : List Char :=
  ['(', ')', '[', ']', '{', '}', '|', '\\', '^', '$', '+', '?']

/-- Pattern compilation worker: scan characters, accumulate pieces (reversed).
A `*` stars the previous piece; with no previous piece, or applied twice,
compilation fails, as `re.compile` fails on `"*"` and `"a**"`. -/
def compileAux : List Char → List Piece → Option (List Piece)
  | [], acc => some acc.reverse
  | c :: cs, acc =>
    if c ∈ metaChars then none
    else if c = '*' then
      match acc with
      | [] => none
      | p :: ps =>
        if p.starred then none
        else compileAux cs ({ p with starred := true } :: ps)
    else if c = '.' then compileAux cs (⟨Atom.dot, false⟩ :: acc)
    else compileAux cs (⟨Atom.lit c, false⟩ :: acc)

/-- Model of `re.compile` on the pattern subset. -/
def compilePattern (s : String) : Option (List Piece) :=
  compileAux s.data []

/-- Matching worker, fuelled so that the recursion is structural (every step
consumes one unit and shrinks pieces-plus-characters, so any fuel above that
sum is enough and the fuel never runs out). -/
def matchFuel : Nat → List Piece → List Char → Bool
  | 0, _, _ => false
  | _ + 1, [], _ => true
  | f + 1, Piece.mk a false :: ps, cs =>
    match cs with
    | [] => false
    | c :: cs' => atomMatch a c && matchFuel f ps cs'
  | f + 1, Piece.mk a true :: ps, cs =>
    matchFuel f ps cs ||
      (match cs with
       | [] => false
       | c :: cs' => atomMatch a c && matchFuel f (Piece.mk a true :: ps) cs')

/-- Whether a piece list matches a prefix of the character list (anchored at
the start; the tail may be arbitrary, like `re.search` once a start position
is fixed). -/
def matchPieces (ps : List Piece) (cs : List Char) : Bool :=
  matchFuel (ps.length + cs.length + 1) ps cs

/-- All suffixes of a character list, longest first (the candidate match start
positions of `re.search`). -/
def suffixes : List Char → List (List Char)
  | [] => [[]]
  | c :: cs => (c :: cs) :: suffixes cs

/-- Model of `Series.str.contains(pat, na=False)` on one cell: a null cell
never matches (`na=False`); otherwise `re.search` — the pattern may match
starting at any position. -/
def strContains (ps : List Piece) (cell : Option String) : Bool :=
  match cell with
  | none => false
  | some s => (suffixes s.data).any (matchPieces ps)

/-- The keyword mask of lines 63-64: title contains the pattern OR keyword
column contains the pattern, nulls never matching. -/
def keyword_mask (ps : List Piece) (r : IndexRecord) : Bool :=
  strContains ps r.title || strContains ps r.keyword

/-- Line 54-55: `if min_point > 0: df_view = df_view[df_view["global_point"] >= min_point]`. -/
def apply_min (df : List IndexRecord) (min_point : Int) : List IndexRecord :=
  if 0 < min_point then df.filter (fun r => decide (min_point ≤ r.global_point)) else df

/-- Lines 57-58: `if genre_filter != "すべて": df_view = df_view[df_view["genre"] == genre_filter]`. -/
def apply_genre (df : List IndexRecord) (genre_filter : String) : List IndexRecord :=
  if genre_filter = "すべて" then df
  else df.filter (fun r => decide (r.genre = genre_filter))

/-- Lines 60-65: `if keyword:` guard, then the title/keyword contains-mask.
Compiling the keyword pattern happens before any row is examined, so an
ill-formed pattern raises regardless of the data. -/
def apply_keyword (df : List IndexRecord) (keyword : String) :
    Except RegexErr (List IndexRecord) :=
  if keyword = "" then Except.ok df
  else
    match compilePattern keyword with
    | none => Except.error (RegexErr.badPattern keyword)
    | some ps => Except.ok (df.filter (keyword_mask ps))

/-- Insertion step of the sort model: insert a record into a list that is
already non-increasing in `global_point`, keeping it non-increasing. -/
def insertDesc (r : IndexRecord) : List IndexRecord → List IndexRecord
  | [] => [r]
  | x :: xs => if r.global_point ≤ x.global_point then x :: insertDesc r xs else r :: x :: xs

/-- Model of line 68, `df_view.sort_values("global_point", ascending=False)`:
a comparison sort arranging the rows non-increasingly by `global_point`.
The source leaves the tie order unspecified (pandas' default `kind` is
`quicksort`, which is not stable); this model commits to one arrangement and
only order-insensitive properties are proved about it. -/
def sort_values (l : List IndexRecord) : List IndexRecord :=
  l.foldr insertDesc []

/-- The whole filter-and-sort pipeline of lines 52-68 producing `df_view`. -/
def df_view (df_index : List IndexRecord) (min_point : Int)
    (genre_filter keyword : String) : Except RegexErr (List IndexRecord) :=
  match apply_keyword (apply_genre (apply_min df_index min_point) genre_filter) keyword with
  | Except.error e => Except.error e
  | Except.ok v => Except.ok (sort_values v)

/-- Literal substring test on character lists (the spec's recommended
"case-sensitive substring match" reading of the keyword search), used only to
compare against the source's regex behaviour. -/
def isSubOf (needle hay : List Char) : Bool :=
  (suffixes hay).any (fun t => needle.isPrefixOf t)

/-- Keyword mask under literal-substring semantics (spec's reading), for
comparison with `keyword_mask`. -/
def keyword_mask_literal (kw : String) (r : IndexRecord) : Bool :=
  (match r.title with
   | none => false
   | some t => isSubOf kw.data t.data) ||
  (match r.keyword with
   | none => false
   | some t => isSubOf kw.data t.data)

/-- The filter pipeline with the keyword predicate read as literal substring
(the spec's words), for comparison with `df_view`. -/
def df_view_literal (df_index : List IndexRecord) (min_point : Int)
    (genre_filter keyword : String) : List IndexRecord :=
  let v := apply_genre (apply_min df_index min_point) genre_filter
  if keyword = "" then sort_values v
  else sort_values (v.filter (keyword_mask_literal keyword))

/-- Line 75: the fixed page size. -/
def PAGE_SIZE : Nat := 50

/-- Line 77: `total_pages = math.ceil(total_rows / PAGE_SIZE) if total_rows > 0 else 1`
(`/` is Python's true division; `math.ceil` of the exact quotient). -/
def total_pages (total_rows page_size : Nat) : Nat :=
  if 0 < total_rows then ⌈(total_rows : ℚ) / (page_size : ℚ)⌉₊ else 1

/-- Resolution of one Python slice bound against a sequence of length `n`:
a negative bound counts from the end (clamped below at 0), a non-negative
bound is clamped above at `n`. -/
def resolveIdx (n : Nat) (i : Int) : Nat :=
  if i < 0 then ((n : Int) + i).toNat else min i.toNat n

/-- Model of `df.iloc[a:b]` for integer bounds: resolve both bounds, then take
the elements in between (empty when the resolved bounds cross). -/
def ilocSlice (l : List IndexRecord) (a b : Int) : List IndexRecord :=
  (l.drop (resolveIdx l.length a)).take (resolveIdx l.length b - resolveIdx l.length a)

/-- Lines 84-86: `start_idx = (current_page - 1) * PAGE_SIZE`,
`end_idx = start_idx + PAGE_SIZE`, `df_view.iloc[start_idx:end_idx]`.
The page number is an `Int` so that page 0 produces a negative start index
exactly as in Python. -/
def page_slice (l : List IndexRecord) (page_size : Nat) (current_page : Int) :
    List IndexRecord :=
  ilocSlice l ((current_page - 1) * (page_size : Int))
    ((current_page - 1) * (page_size : Int) + (page_size : Int))

/-- Lines 89-107 as a function of the requested id list: when
`df_display_index` is empty no query is issued (query count 0); otherwise one
query (`count 1`) returns the `(ncode, story)` pairs of exactly the store rows
whose `ncode` is in the requested list (`WHERE ncode IN (...)`). -/
def fetch_details (target_ncodes : List String) (store : List StoreRow) :
    List DetailRow × Nat :=
  if target_ncodes.isEmpty then ([], 0)
  else
    ((store.filter (fun row => decide (row.ncode ∈ target_ncodes))).map
      (fun row => ⟨row.ncode, row.story⟩), 1)

/-- A displayed row: the index record left-joined with its fetched story. -/
structure FinalRow where
  record : IndexRecord
  story : Option String
deriving DecidableEq, Repr

/-- Line 110, `pd.merge(df_display_index, df_stories, on="ncode", how="left")`
under the index invariant that `ncode` is unique: each displayed row keeps its
index fields and picks up the first matching story, if any. -/
def merge_left (slice : List IndexRecord) (stories : List DetailRow) :
    List FinalRow :=
  slice.map fun r =>
    ⟨r, (stories.find? (fun d => decide (d.ncode = r.ncode))).bind (fun d => d.story)⟩

/-- Lines 89-112 with the store's availability made explicit: `conn = none`
means duckdb raises on connect/execute.  The script wraps this block in no
`try`/`except`, so an unavailable store propagates as an error and nothing is
rendered; only an empty page skips the store entirely. -/
def render_page (df_display_index : List IndexRecord)
    (conn : Option (List StoreRow)) : Except DataSourceErr (List FinalRow) :=
  if df_display_index.isEmpty then Except.ok []
  else
    match conn with
    | none => Except.error DataSourceErr.unavailable
    | some store =>
      let df_stories :=
        (store.filter
          (fun row => decide (row.ncode ∈ df_display_index.map (fun r => r.ncode)))).map
          (fun row => DetailRow.mk row.ncode row.story)
      Except.ok (merge_left df_display_index df_stories)

/-- Sample index record: latin title, non-null keyword column. -/
def rA : IndexRecord :=
  ⟨"n0001", some "abc", "ファンタジー", 5, some 1000, some "2024-01-01", some "魔法"⟩

/-- Sample index record whose title contains the three characters `a.c`. -/
def rB : IndexRecord :=
  ⟨"n0002", some "xa.cz", "恋愛", 3, none, none, none⟩

/-- Sample index record with null title and null keyword column. -/
def rC : IndexRecord :=
  ⟨"n0003", none, "不明", 9, none, none, none⟩

/-- Sample index record with an upper-case title. -/
def rD : IndexRecord :=
  ⟨"n0004", some "ABC", "SF", 1, none, none, some "aaa"⟩

/-- A small sample index. -/
def idx10 : List IndexRecord := [rA, rB, rC, rD]

/-- Another small sample index, for the pagination scenarios. -/
def sample3 : List IndexRecord := [rA, rB, rC]

/-- A small sample store, with one row needing both normalizations. -/
def demoStore : List StoreRow :=
  [⟨"n0001", some "abc", some "ファンタジー", some 5, some 1000, some "2024-01-01",
    some "魔法", some "長いあらすじ"⟩,
   ⟨"n0005", some "t", none, none, none, none, none, some "story text"⟩]

/-- Whether a filter-pipeline value is a success (the script reaching line 68
without an exception). -/
def is_ok (e : Except RegexErr (List IndexRecord)) : Bool :=
  match e with
  | Except.ok _ => true
  | Except.error _ => false

/-- Membership is invariant under the insertion step of the sort model. -/
lemma mem_insertDesc {x r : IndexRecord} : ∀ {l : List IndexRecord},
    x ∈ insertDesc r l ↔ x = r ∨ x ∈ l := by
  intro l
  induction l with
  | nil => simp [insertDesc]
  | cons y ys ih =>
    unfold insertDesc
    by_cases h : r.global_point ≤ y.global_point
    · rw [if_pos h]
      simp only [List.mem_cons, ih]
      tauto
    · rw [if_neg h]
      simp only [List.mem_cons]

/-- Sorting is a permutation in particular for membership. -/
lemma mem_sort_values {x : IndexRecord} : ∀ {l : List IndexRecord},
    x ∈ sort_values l ↔ x ∈ l := by
  intro l
  induction l with
  | nil => simp [sort_values]
  | cons y ys ih =>
    show x ∈ insertDesc y (sort_values ys) ↔ _
    rw [mem_insertDesc]
    simp only [List.mem_cons, ih]

/-- The insertion step keeps the list non-increasing in `global_point`. -/
lemma pairwise_insertDesc {r : IndexRecord} : ∀ {l : List IndexRecord},
    l.Pairwise (fun a b => b.global_point ≤ a.global_point) →
    (insertDesc r l).Pairwise (fun a b => b.global_point ≤ a.global_point) := by
  intro l
  induction l with
  | nil => simp [insertDesc]
  | cons x xs ih =>
    intro h
    rw [List.pairwise_cons] at h
    unfold insertDesc
    by_cases hc : r.global_point ≤ x.global_point
    · rw [if_pos hc, List.pairwise_cons]
      refine ⟨?_, ih h.2⟩
      intro b hb
      rcases mem_insertDesc.mp hb with rfl | hbx
      · exact hc
      · exact h.1 b hbx
    · rw [if_neg hc, List.pairwise_cons]
      refine ⟨?_, List.pairwise_cons.mpr h⟩
      intro b hb
      rcases List.mem_cons.mp hb with rfl | hbxs
      · omega
      · have := h.1 b hbxs
        omega

/-- The sort model's output is non-increasing in `global_point` (the half of
the ordering contract that the source's `sort_values` call does guarantee). -/
lemma sort_values_sorted : ∀ (l : List IndexRecord),
    (sort_values l).Pairwise (fun a b => b.global_point ≤ a.global_point) := by
  intro l
  induction l with
  | nil => simp [sort_values]
  | cons x xs ih => exact pairwise_insertDesc ih

/-- Unpacking the score filter: its output rows come from the input and pass
the threshold whenever it is active. -/
lemma apply_min_mem {df : List IndexRecord} {mp : Int} {r : IndexRecord}
    (h : r ∈ apply_min df mp) : r ∈ df ∧ (0 < mp → mp ≤ r.global_point) := by
  unfold apply_min at h
  by_cases hc : 0 < mp
  · rw [if_pos hc] at h
    rw [List.mem_filter] at h
    exact ⟨h.1, fun _ => by simpa using h.2⟩
  · rw [if_neg hc] at h
    exact ⟨h, fun hmp => absurd hmp hc⟩

/-- Unpacking the genre filter: its output rows come from the input and match
the genre exactly whenever the filter is active. -/
lemma apply_genre_mem {df : List IndexRecord} {gf : String} {r : IndexRecord}
    (h : r ∈ apply_genre df gf) : r ∈ df ∧ (gf ≠ "すべて" → r.genre = gf) := by
  unfold apply_genre at h
  by_cases hc : gf = "すべて"
  · rw [if_pos hc] at h
    exact ⟨h, fun hne => absurd hc hne⟩
  · rw [if_neg hc] at h
    rw [List.mem_filter] at h
    exact ⟨h.1, fun _ => by simpa using h.2⟩

/-- The rational ceiling of line 77 agrees with the usual integer formula. -/
lemma total_pages_eq (n s : Nat) (hs : 0 < s) :
    total_pages n s = if 0 < n then (n + s - 1) / s else 1 := by
  unfold total_pages
  by_cases hn : 0 < n
  · rw [if_pos hn, if_pos hn]
    have hspos : (0 : ℚ) < (s : ℚ) := by exact_mod_cast hs
    have h1 : s * ((n + s - 1) / s) + (n + s - 1) % s = n + s - 1 := Nat.div_add_mod _ _
    have h2 : (n + s - 1) % s < s := Nat.mod_lt _ hs
    set q := (n + s - 1) / s with hqdef
    set r := (n + s - 1) % s with hrdef
    obtain ⟨m, hm⟩ : ∃ m, s * q = m := ⟨_, rfl⟩
    rw [hm] at h1
    have hq0 : q ≠ 0 := by
      intro h0
      rw [h0, Nat.mul_zero] at hm
      omega
    have e1 : q * s = m := by rw [Nat.mul_comm, hm]
    have e2 : (q - 1) * s = m - s := by rw [Nat.sub_mul, one_mul, e1]
    rw [Nat.ceil_eq_iff hq0]
    constructor
    · rw [lt_div_iff₀ hspos]
      have hlt : (q - 1) * s < n := by rw [e2]; omega
      exact_mod_cast hlt
    · rw [div_le_iff₀ hspos]
      have hle : n ≤ q * s := by rw [e1]; omega
      exact_mod_cast hle
  · rw [if_neg hn, if_neg hn]

/-- For a nonempty result set, `total_pages` pages cover it and one fewer
page does not. -/
lemma total_pages_bounds (n s : Nat) (hs : 0 < s) (hn : 0 < n) :
    n ≤ total_pages n s * s ∧ (total_pages n s - 1) * s < n := by
  rw [total_pages_eq n s hs, if_pos hn]
  have h1 : s * ((n + s - 1) / s) + (n + s - 1) % s = n + s - 1 := Nat.div_add_mod _ _
  have h2 : (n + s - 1) % s < s := Nat.mod_lt _ hs
  set q := (n + s - 1) / s with hqdef
  set r := (n + s - 1) % s with hrdef
  obtain ⟨m, hm⟩ : ∃ m, s * q = m := ⟨_, rfl⟩
  rw [hm] at h1
  have e1 : q * s = m := by rw [Nat.mul_comm, hm]
  have e2 : (q - 1) * s = m - s := by rw [Nat.sub_mul, one_mul, e1]
  constructor
  · rw [e1]; omega
  · rw [e2]; omega

/-- Resolving a non-negative slice bound. -/
lemma resolveIdx_natCast (n m : Nat) : resolveIdx n (m : Int) = min m n := by
  unfold resolveIdx
  have ht : ((m : Int)).toNat = m := by omega
  rw [if_neg (by omega : ¬ ((m : Int) < 0)), ht]

/-- For page numbers from 1 up, the slice of lines 84-86 is the usual
drop-then-take window. -/
lemma page_slice_pos (l : List IndexRecord) (s : Nat) (p : Int) (hp : 1 ≤ p) :
    page_slice l s p = (l.drop ((p - 1).toNat * s)).take s := by
  have hk : ((p - 1).toNat : Int) = p - 1 := Int.toNat_of_nonneg (by omega)
  have ha : (((p - 1).toNat * s : Nat) : Int) = (p - 1) * (s : Int) := by
    rw [Nat.cast_mul, hk]
  have hb : (((p - 1).toNat * s + s : Nat) : Int) = (p - 1) * (s : Int) + (s : Int) := by
    rw [Nat.cast_add, Nat.cast_mul, hk]
  unfold page_slice ilocSlice
  rw [← hb, ← ha, resolveIdx_natCast, resolveIdx_natCast]
  set k := (p - 1).toNat
  by_cases hc : k * s ≤ l.length
  · rw [Nat.min_eq_left hc, List.take_eq_take, List.length_drop]
    omega
  · have h1 : min (k * s) l.length = l.length := by omega
    have h2 : min (k * s + s) l.length = l.length := by omega
    rw [h1, h2, List.drop_length, List.drop_eq_nil_of_le (by omega : l.length ≤ k * s)]
    simp

/-- A resolved slice window never exceeds the nominal width. -/
lemma resolveIdx_sub_le (n : Nat) (a : Int) (s : Nat) :
    resolveIdx n (a + s) - resolveIdx n a ≤ s := by
  unfold resolveIdx
  by_cases h1 : a + (s : Int) < 0
  · rw [if_pos h1, if_pos (by omega)]
    omega
  · rw [if_neg h1]
    by_cases h2 : a < 0
    · rw [if_pos h2]
      omega
    · rw [if_neg h2]
      omega

/-- A page slice never holds more than `page_size` records. -/
lemma page_slice_length_le (l : List IndexRecord) (s : Nat) (p : Int) :
    (page_slice l s p).length ≤ s := by
  unfold page_slice ilocSlice
  exact le_trans (List.length_take_le _ _) (resolveIdx_sub_le _ _ _)

/-- Concatenating consecutive `s`-wide windows reconstructs any list that the
windows cover. -/
lemma flatten_chunks (s : Nat) : ∀ (tp : Nat) (l : List IndexRecord),
    l.length ≤ tp * s →
    ((List.range tp).map (fun i => (l.drop (i * s)).take s)).flatten = l := by
  intro tp
  induction tp with
  | zero =>
    intro l hl
    have h0 : l = [] := List.length_eq_zero.mp (by omega)
    simp [h0]
  | succ tp ih =>
    intro l hl
    rw [List.range_succ_eq_map, List.map_cons, List.map_map, List.flatten_cons]
    have hmap : (List.range tp).map ((fun i => (l.drop (i * s)).take s) ∘ Nat.succ)
        = (List.range tp).map (fun i => ((l.drop s).drop (i * s)).take s) := by
      apply List.map_congr_left
      intro a _
      show (l.drop (Nat.succ a * s)).take s = ((l.drop s).drop (a * s)).take s
      rw [List.drop_drop, Nat.succ_mul, Nat.add_comm]
    have hlen : (l.drop s).length ≤ tp * s := by
      rw [List.length_drop]
      have hsucc : (tp + 1) * s = tp * s + s := by rw [Nat.succ_mul]
      omega
    rw [hmap, ih (l.drop s) hlen, Nat.zero_mul, List.drop_zero]
    exact List.take_append_drop s l

/-- C1: every successful `df_view` run returns a subset of the input index,
and every returned record simultaneously passes each active predicate: the
score threshold when `min_point > 0`, exact genre equality when the genre
filter is not the sentinel `"すべて"`, and the keyword contains-mask (title or
keyword column) when the keyword is non-empty. -/
theorem df_view_subset_and_conjunction
    (df_index : List IndexRecord) (min_point : Int) (genre_filter keyword : String)
    (l : List IndexRecord)
    (h : df_view df_index min_point genre_filter keyword = Except.ok l) :
    ∀ r ∈ l, r ∈ df_index ∧
      (0 < min_point → min_point ≤ r.global_point) ∧
      (genre_filter ≠ "すべて" → r.genre = genre_filter) ∧
      (∀ ps, keyword ≠ "" → compilePattern keyword = some ps →
        keyword_mask ps r = true) := by
  intro r hr
  unfold df_view at h
  cases hak : apply_keyword (apply_genre (apply_min df_index min_point) genre_filter)
      keyword with
  | error e =>
    rw [hak] at h
    simp at h
  | ok v =>
    rw [hak] at h
    injection h with h'
    rw [← h'] at hr
    have hrv : r ∈ v := mem_sort_values.mp hr
    unfold apply_keyword at hak
    by_cases hkw : keyword = ""
    · rw [if_pos hkw] at hak
      injection hak with hak'
      rw [← hak'] at hrv
      obtain ⟨h1, h2⟩ := apply_genre_mem hrv
      obtain ⟨h3, h4⟩ := apply_min_mem h1
      exact ⟨h3, h4, h2, fun ps hne _ => absurd hkw hne⟩
    · rw [if_neg hkw] at hak
      cases hcp : compilePattern keyword with
      | none =>
        rw [hcp] at hak
        simp at hak
      | some ps0 =>
        rw [hcp] at hak
        injection hak with hak'
        rw [← hak'] at hrv
        rw [List.mem_filter] at hrv
        obtain ⟨hmem, hmask⟩ := hrv
        obtain ⟨h1, h2⟩ := apply_genre_mem hmem
        obtain ⟨h3, h4⟩ := apply_min_mem h1
        refine ⟨h3, h4, h2, ?_⟩
        intro ps _ hps
        have he : ps0 = ps := Option.some.inj hps
        rw [← he]
        exact hmask

/-- Witness for C1: on the sample index with `min_point = 2`, genre filter
`"不明"` and no keyword, the returned record is in the index and passes both
active predicates. -/
theorem df_view_subset_and_conjunction_inst :
    rC ∈ idx10 ∧ (2 : Int) ≤ rC.global_point ∧ rC.genre = "不明" := by
  have h := df_view_subset_and_conjunction idx10 2 "不明" "" [rC] rfl rC (by simp)
  exact ⟨h.1, h.2.1 (by norm_num), h.2.2.1 (by decide)⟩

/-- C3 counterexample: the keyword is handed to `str.contains` as a regular
expression, so the ill-formed pattern `"("` makes the filter raise
(`re.error`) instead of returning a result — the Filter Engine can fail on a
well-formed (arbitrary string) input. -/
theorem filter_engine_raises_on_bad_pattern :
    df_view idx10 0 "すべて" "(" = Except.error (RegexErr.badPattern "(") := rfl

/-- C3 as amended: for every keyword that is empty or compiles as a pattern,
the filter succeeds (an empty result list being a valid value), and the
paginator is total, always returning a slice of at most `page_size` records. -/
theorem filter_and_paginator_total
    (df_index : List IndexRecord) (min_point : Int) (genre_filter keyword : String)
    (l : List IndexRecord) (s : Nat) (p : Int)
    (hkw : keyword = "" ∨ (compilePattern keyword).isSome = true) :
    is_ok (df_view df_index min_point genre_filter keyword) = true ∧
    (page_slice l s p).length ≤ s := by
  refine ⟨?_, page_slice_length_le l s p⟩
  unfold df_view apply_keyword
  rcases hkw with hkw | hkw
  · rw [if_pos hkw]
    rfl
  · by_cases he : keyword = ""
    · rw [if_pos he]
      rfl
    · rw [if_neg he]
      cases hcp : compilePattern keyword with
      | none => rw [hcp] at hkw; simp at hkw
      | some ps => rfl

/-- Witness for C3 (amended): the starred pattern `"a*c"` compiles, the filter
run succeeds, and the page-1 slice is within the page size. -/
theorem filter_and_paginator_total_inst :
    is_ok (df_view idx10 0 "すべて" "a*c") = true ∧
    (page_slice idx10 PAGE_SIZE 1).length ≤ PAGE_SIZE :=
  filter_and_paginator_total idx10 0 "すべて" "a*c" idx10 PAGE_SIZE 1 (Or.inr (by decide))

/-- C4: `total_pages` is 1 for an empty result set and the ceiling
`(n + s - 1) / s` of the exact quotient otherwise, and for a valid page
number in `[1, total_pages]` the page slice is empty exactly when the result
set is empty. -/
theorem total_pages_ceil_and_floor
    (l : List IndexRecord) (s : Nat) (p : Int) (hs : 0 < s) :
    (l.length = 0 → total_pages l.length s = 1) ∧
    (0 < l.length → total_pages l.length s = (l.length + s - 1) / s) ∧
    (1 ≤ p → p ≤ (total_pages l.length s : Int) →
      (page_slice l s p = [] ↔ l.length = 0)) := by
  refine ⟨?_, ?_, ?_⟩
  · intro h0
    rw [total_pages_eq _ _ hs, if_neg (by omega)]
  · intro hn
    rw [total_pages_eq _ _ hs, if_pos hn]
  · intro hp1 hptp
    rw [page_slice_pos l s p hp1]
    constructor
    · intro he
      by_contra hne
      have hn : 0 < l.length := Nat.pos_of_ne_zero hne
      obtain ⟨hub, hlb⟩ := total_pages_bounds l.length s hs hn
      have hk : (p - 1).toNat ≤ total_pages l.length s - 1 := by omega
      have hks : (p - 1).toNat * s ≤ (total_pages l.length s - 1) * s :=
        Nat.mul_le_mul_right s hk
      have hlt : (p - 1).toNat * s < l.length := lt_of_le_of_lt hks hlb
      have hlen := congrArg List.length he
      rw [List.length_take, List.length_drop, List.length_nil] at hlen
      omega
    · intro h0
      rw [List.length_eq_zero.mp h0]
      simp

/-- Witness for C4: the four-record sample index with page size 50 has one
page, and its first page is non-empty. -/
theorem total_pages_ceil_and_floor_inst :
    total_pages idx10.length 50 = 1 ∧ page_slice idx10 50 1 ≠ [] := by
  have h := total_pages_ceil_and_floor idx10 50 1 (by norm_num)
  have h2 : total_pages idx10.length 50 = 1 := by
    rw [h.2.1 (by decide)]
    decide
  refine ⟨h2, fun he => ?_⟩
  have h3 := (h.2.2 (by norm_num) (by rw [h2]; norm_num)).mp he
  exact absurd h3 (by decide)

/-- C5: concatenating the page slices for pages 1 through `total_pages`, in
order, reconstructs the filtered/sorted sequence exactly — every record once,
no gaps, no duplicates. -/
theorem pages_partition (l : List IndexRecord) (s : Nat) (hs : 0 < s) :
    ((List.range (total_pages l.length s)).map
      (fun (i : Nat) => page_slice l s ((i : Int) + 1))).flatten = l := by
  have hmap : (List.range (total_pages l.length s)).map
        (fun (i : Nat) => page_slice l s ((i : Int) + 1))
      = (List.range (total_pages l.length s)).map (fun i => (l.drop (i * s)).take s) := by
    apply List.map_congr_left
    intro i _
    rw [page_slice_pos l s ((i : Int) + 1) (by omega)]
    have ht : ((i : Int) + 1 - 1).toNat = i := by omega
    rw [ht]
  rw [hmap]
  apply flatten_chunks
  by_cases hn : 0 < l.length
  · exact (total_pages_bounds l.length s hs hn).1
  · have h0 : l.length = 0 := by omega
    rw [h0]
    exact Nat.zero_le _

/-- Witness for C5: the pages of the sample index concatenate back to it. -/
theorem pages_partition_inst :
    ((List.range (total_pages idx10.length 50)).map
      (fun (i : Nat) => page_slice idx10 50 ((i : Int) + 1))).flatten = idx10 :=
  pages_partition idx10 50 (by norm_num)

/-- C6 counterexample: the script has no `InvalidPageError` — requesting page
0 or page `total_pages + 1` (here 2, the sample having one page) returns an
empty slice, not an error; page numbers are constrained to the valid range by
the `number_input` widget, not by the slicing code. -/
theorem out_of_range_page_returns_slice :
    total_pages sample3.length 50 = 1 ∧
    page_slice sample3 50 0 = [] ∧
    page_slice sample3 50 2 = [] := by
  refine ⟨?_, by decide, by decide⟩
  rw [total_pages_eq _ _ (by norm_num)]
  decide

/-- C6 as amended: out-of-range page numbers do not fail; page 0 and every
page above `total_pages` yield the empty slice (the widget itself clamps user
input to `[1, total_pages]`). -/
theorem out_of_range_page_empty (l : List IndexRecord) (s : Nat) (p : Int)
    (hs : 0 < s) (h : p = 0 ∨ (total_pages l.length s : Int) < p) :
    page_slice l s p = [] := by
  cases h with
  | inl h0 =>
    subst h0
    unfold page_slice ilocSlice
    have hb : ((0 : Int) - 1) * (s : Int) + (s : Int) = 0 := by ring
    rw [hb]
    have hz : resolveIdx l.length 0 = 0 := by
      unfold resolveIdx
      rw [if_neg (by omega : ¬ ((0 : Int) < 0))]
      simp
    rw [hz]
    simp
  | inr hgt =>
    have hp1 : 1 ≤ p := by
      have hnn : (0 : Int) ≤ (total_pages l.length s : Int) := Int.natCast_nonneg _
      omega
    rw [page_slice_pos l s p hp1]
    have hn : l.length ≤ (p - 1).toNat * s := by
      by_cases h0 : 0 < l.length
      · obtain ⟨hub, _⟩ := total_pages_bounds l.length s hs h0
        have htp : total_pages l.length s ≤ (p - 1).toNat := by omega
        calc l.length ≤ total_pages l.length s * s := hub
        _ ≤ (p - 1).toNat * s := Nat.mul_le_mul_right s htp
      · omega
    rw [List.drop_eq_nil_of_le hn]
    simp

/-- Witness for C6 (amended): page 0 of the sample index is the empty slice. -/
theorem out_of_range_page_empty_inst : page_slice idx10 50 0 = [] :=
  out_of_range_page_empty idx10 50 0 (by norm_num) (Or.inl rfl)

/-- C7: an empty id list yields an empty mapping with zero queries issued; a
non-empty id list issues exactly one query, and every returned row's id is
among the requested ids. -/
theorem fetch_details_contract (target_ncodes : List String) (store : List StoreRow) :
    (target_ncodes = [] → fetch_details target_ncodes store = ([], 0)) ∧
    (target_ncodes ≠ [] →
      (fetch_details target_ncodes store).2 = 1 ∧
      ∀ d ∈ (fetch_details target_ncodes store).1, d.ncode ∈ target_ncodes) := by
  constructor
  · intro h
    subst h
    rfl
  · intro hne
    unfold fetch_details
    rw [if_neg (by simpa [List.isEmpty_iff] using hne)]
    refine ⟨rfl, ?_⟩
    intro d hd
    simp only [List.mem_map] at hd
    obtain ⟨row, hrow, hdrow⟩ := hd
    rw [List.mem_filter] at hrow
    have hin := hrow.2
    rw [← hdrow]
    simpa using hin

/-- Witness for C7: no query for the empty id list; one query for a singleton
id list over the sample store. -/
theorem fetch_details_contract_inst :
    fetch_details [] demoStore = ([], 0) ∧
    (fetch_details ["n0001"] demoStore).2 = 1 :=
  ⟨(fetch_details_contract [] demoStore).1 rfl,
   ((fetch_details_contract ["n0001"] demoStore).2 (by simp)).1⟩

/-- C8 counterexample: with the store unavailable, the detail-fetch block —
which lines 89-112 wrap in no `try`/`except` — propagates the error: the
page is not rendered at all, so no degraded render, no warning, and the
pipeline aborts, contrary to the claim. -/
theorem detail_fetch_failure_aborts_concrete :
    render_page [rB] none = Except.error DataSourceErr.unavailable := rfl

/-- C8 as amended: for every non-empty page, store unavailability during the
detail fetch is not caught; the error propagates and the page render aborts
(only an empty page, which skips the store, still renders). -/
theorem detail_fetch_failure_aborts (slice : List IndexRecord) (hne : slice ≠ []) :
    render_page slice none = Except.error DataSourceErr.unavailable := by
  unfold render_page
  rw [if_neg (by simpa [List.isEmpty_iff] using hne)]

/-- Witness for C8 (amended): a one-record page aborts when the store is
unavailable. -/
theorem detail_fetch_failure_aborts_inst :
    render_page [rA] none = Except.error DataSourceErr.unavailable :=
  detail_fetch_failure_aborts [rA] (by simp)

/-- C9: the index load keeps exactly the narrow columns of every store row —
its output never depends on the `story` column — and normalizes a missing
`global_point` to 0 and a missing `genre` to the sentinel `"不明"`
("unknown"), leaving the other fields as read. -/
theorem load_index_contract (store : List StoreRow) :
    (load_index_data store).length = store.length ∧
    (∀ i (h : i < store.length) (h' : i < (load_index_data store).length),
      ((load_index_data store).get ⟨i, h'⟩).ncode = (store.get ⟨i, h⟩).ncode ∧
      ((load_index_data store).get ⟨i, h'⟩).title = (store.get ⟨i, h⟩).title ∧
      ((load_index_data store).get ⟨i, h'⟩).genre = ((store.get ⟨i, h⟩).genre).getD "不明" ∧
      ((load_index_data store).get ⟨i, h'⟩).global_point
        = ((store.get ⟨i, h⟩).global_point).getD 0 ∧
      ((load_index_data store).get ⟨i, h'⟩).length = (store.get ⟨i, h⟩).length ∧
      ((load_index_data store).get ⟨i, h'⟩).general_lastup
        = (store.get ⟨i, h⟩).general_lastup ∧
      ((load_index_data store).get ⟨i, h'⟩).keyword = (store.get ⟨i, h⟩).keyword) ∧
    (∀ store2 : List StoreRow, store.map eraseStory = store2.map eraseStory →
      load_index_data store = load_index_data store2) := by
  refine ⟨by simp [load_index_data], ?_, ?_⟩
  · intro i h h'
    simp [load_index_data]
  · intro store2 hsame
    have key : ∀ st : List StoreRow,
        load_index_data st = (st.map eraseStory).map narrowOf := by
      intro st
      rw [List.map_map]
      rfl
    rw [key store, key store2, hsame]

/-- Witness for C9: on the sample store's second row (null genre, null
score), the loaded record carries the sentinel genre and score 0. -/
theorem load_index_contract_inst :
    (load_index_data demoStore).length = demoStore.length ∧
    ((load_index_data demoStore).get ⟨1, by decide⟩).genre = "不明" ∧
    ((load_index_data demoStore).get ⟨1, by decide⟩).global_point = 0 := by
  have h := load_index_contract demoStore
  refine ⟨h.1, ?_, ?_⟩
  · have h2 := (h.2.1 1 (by decide) (by decide)).2.2.1
    rw [h2]
    rfl
  · have h2 := (h.2.1 1 (by decide) (by decide)).2.2.2.1
    rw [h2]
    rfl

/-- C10: the keyword is interpreted as a regular-expression pattern — the
metacharacter pattern `"a.c"` selects a record whose title is `"abc"`, which
literal-substring matching would not, so the two result sets differ —
matching is case-sensitive (`"ABC"` selects only the upper-case title, and
`"a"` not it), and a record whose title and keyword cells are both null never
matches any compiled pattern (`na=False`). -/
theorem keyword_is_regex_and_case_sensitive :
    df_view idx10 0 "すべて" "a.c" = Except.ok [rA, rB] ∧
    df_view_literal idx10 0 "すべて" "a.c" = [rB] ∧
    ([rA, rB] : List IndexRecord) ≠ [rB] ∧
    df_view idx10 0 "すべて" "ABC" = Except.ok [rD] ∧
    df_view idx10 0 "すべて" "a" = Except.ok [rA, rB, rD] ∧
    (∀ (kw : String) (ps : List Piece) (r : IndexRecord),
      compilePattern kw = some ps → r.title = none → r.keyword = none →
      keyword_mask ps r = false) := by
  refine ⟨by rfl, by rfl, by decide, by rfl, by rfl, ?_⟩
  intro kw ps r _ ht hk
  unfold keyword_mask strContains
  rw [ht, hk]
  rfl

/-- Witness for C10: the null-title, null-keyword sample record is rejected
by the compiled pattern `"a"`. -/
theorem keyword_is_regex_and_case_sensitive_inst :
    keyword_mask [Piece.mk (Atom.lit 'a') false] rC = false :=
  keyword_is_regex_and_case_sensitive.2.2.2.2.2 "a"
    [Piece.mk (Atom.lit 'a') false] rC rfl rfl rfl

end Narou
